import Mathlib

/-!
Shallow embedding of the wb_bot slot-monitoring core
(`app/services/slot_monitor.py`, `app/services/wildberries_api.py`,
`app/database/repositories/slot_monitoring_repo.py`, `app/bot/main.py`).

Conventions of the embedding:
* calendar dates are day numbers (`Int`); the Python code formats dates as
  `YYYY-MM-DD` strings, and that formatting is injective on days, so date
  equality / membership on strings coincides with equality on day numbers;
* acceptance coefficients are rationals (`ℚ`), standing for the Python floats;
* a raw upstream record's optional JSON fields are `Option` values;
* the `date` field of a raw record is three-valued, mirroring the three
  behaviours of the Python parser: an empty string (falsy, skips the date
  checks), an unparseable string (raises, record rejected), or a parsed date.
-/

namespace WbBot

/-- Status of a monitoring (`MonitoringStatus` in `app/database/models.py`). -/
inductive MStatus
  | active
  | paused
  | stopped
  | completed
deriving DecidableEq, Repr

/-- The three-valued `date` field of a raw coefficient record, mirroring
`_filter_suitable_coefficients`: an empty string is falsy and skips every
date check; a malformed string raises `ValueError` and the record is
dropped; otherwise the parsed calendar day. -/
inductive DateField
  | empty
  | invalid
  | valid (day : Int)
deriving DecidableEq, Repr

/-- A raw acceptance-coefficient record as returned by
`get_acceptance_coefficients` (a JSON object; absent keys are `none`). -/
structure RawCoeff where
  coefficient : Option ℚ
  allowUnload : Bool
  warehouseID : Option Int
  warehouseName : Option String
  date : DateField
  boxTypeID : Option Int
  boxTypeName : Option String
deriving DecidableEq, Repr

/-- A monitoring row (`SlotMonitoring` in `app/database/models.py`),
restricted to the fields the monitoring core reads. -/
structure Monitoring where
  id : Int
  coefficientMin : ℚ
  coefficientMax : ℚ
  logisticsShoulder : Int
  boxTypeId : Option Int
  warehouseIds : List Int
  orderNumber : Option String
  status : MStatus
  dateFrom : Option Int
  dateTo : Option Int
  failedBookingDates : List Int
  createdAt : Int
deriving DecidableEq, Repr

/-- The `slot_data` dictionary built by `_filter_suitable_coefficients`
for every record that passes all checks. -/
structure Slot where
  warehouseID : Option Int
  warehouseName : Option String
  date : DateField
  coefficient : ℚ
  boxTypeName : Option String
  boxTypeID : Option Int
  allowUnload : Bool
  available : Bool
deriving DecidableEq, Repr

/-- The minimal admissible slot date: `monitoring.date_from` when set
(already shoulder-adjusted by the setup flow), else
`monitoring.created_at + logistics_shoulder` days
(`_filter_suitable_coefficients`, lines 262-270, and the identical
computation in `_is_better_slot`, lines 402-406). -/
def effectiveMinDate (m : Monitoring) : Int :=
  match m.dateFrom with
  | some d => d
  | none => m.createdAt + m.logisticsShoulder

/-- `if max_slot_date and slot_date > max_slot_date` from the filter:
true when `date_to` is set and the slot date exceeds it. -/
def exceedsDateTo (m : Monitoring) (d : Int) : Bool :=
  match m.dateTo with
  | some mx => decide (mx < d)
  | none => false

/-- `coefficient = float(coeff_data.get('coefficient', -1))` at the top
of the filter body: a missing key defaults to -1 (and is then rejected by
the 0-20 range check). -/
def pyCoefficient (r : RawCoeff) : ℚ :=
  r.coefficient.getD (-1)

/-- The `slot_data` record assembled at the end of the filter body. -/
def mkSlotData (r : RawCoeff) (c : ℚ) : Slot :=
  { warehouseID := r.warehouseID
    warehouseName := r.warehouseName
    date := r.date
    coefficient := c
    boxTypeName := r.boxTypeName
    boxTypeID := r.boxTypeID
    allowUnload := r.allowUnload
    available := true }

/-- The box-type check at the end of the filter body: when the monitoring
constrains the box type, the record's `boxTypeID` must equal it. -/
def boxTypeCheck (m : Monitoring) (r : RawCoeff) (c : ℚ) : Option Slot :=
  match m.boxTypeId with
  | some b => if r.boxTypeID = some b then some (mkSlotData r c) else none
  | none => some (mkSlotData r c)

/-- One iteration of the loop body of
`SlotMonitorService._filter_suitable_coefficients` (lines 280-361):
`some slot` when the record is appended to `suitable_slots`, `none` when a
`continue` fires.  The checks appear in source order: coefficient in
[0, 20], `allowUnload`, the monitoring's coefficient range, warehouse
membership, then (only when the `date` string is non-empty) the
logistics-shoulder minimum, the `date_to` maximum and the failed-dates
blacklist, and finally the box-type constraint. -/
def filterStep (m : Monitoring) (r : RawCoeff) : Option Slot :=
  if pyCoefficient r < 0 ∨ 20 < pyCoefficient r then none
  else if r.allowUnload = false then none
  else if ¬ (m.coefficientMin ≤ pyCoefficient r ∧
      pyCoefficient r ≤ m.coefficientMax) then none
  else
    match r.warehouseID with
    | none => none
    | some w =>
      if w ∉ m.warehouseIds then none
      else
        match r.date with
        | .invalid => none
        | .empty => boxTypeCheck m r (pyCoefficient r)
        | .valid d =>
          if d < effectiveMinDate m then none
          else if exceedsDateTo m d then none
          else if d ∈ m.failedBookingDates then none
          else boxTypeCheck m r (pyCoefficient r)

/-- `SlotMonitorService._filter_suitable_coefficients`: keep every record
accepted by `filterStep`, in order. -/
def filterSuitableCoefficients (coefficients : List RawCoeff) (m : Monitoring) :
    List Slot :=
  coefficients.filterMap (filterStep m)

/-- `SlotMonitorService._is_better_slot` (lines 370-417).  `none` for
`current_best_slot` is Python's falsy `None`/missing cache entry.  The
coefficients are compared first; only on a tie are the two date strings
parsed — any parse failure (empty or malformed string) is caught and the
function returns `False`.  On a tie the slot whose date is closer (in
absolute days) to the effective minimum date wins. -/
def isBetterSlot (newSlot : Slot) (currentBest : Option Slot) (m : Monitoring) :
    Bool :=
  match currentBest with
  | none => true
  | some cur =>
    if newSlot.coefficient < cur.coefficient then true
    else if cur.coefficient < newSlot.coefficient then false
    else
      match newSlot.date, cur.date with
      | .valid nd, .valid cd =>
        let start := effectiveMinDate m
        decide ((nd - start).natAbs < (cd - start).natAbs)
      | _, _ => false

/-- A Python dict key.  `SlotMonitorService.best_slots_cache` is keyed by
`int` monitoring ids in `_process_best_slot`/`_clear_slot_cache` but by
`f"{monitoring.id}_{warehouse_id}"` strings in
`_process_slots_by_warehouse`; in a Python dict `5` and `"5_101"` are
distinct keys, which this sum type makes explicit. -/
inductive PyKey
  | pint (n : Int)
  | pstr (s : String)
deriving DecidableEq, Repr

/-- The cache key `f"{monitoring.id}_{warehouse_id}"` used by
`_process_slots_by_warehouse` (line 446). -/
def warehouseCacheKey (monitoringId warehouseId : Int) : PyKey :=
  .pstr (toString monitoringId ++ "_" ++ toString warehouseId)

/-- A Python dict as a partial map. -/
def PyDict (κ α : Type) := κ → Option α

/-- `d[k] = v`. -/
def dictSet {κ α : Type} [DecidableEq κ] (d : PyDict κ α) (k : κ) (v : α) :
    PyDict κ α :=
  fun k' => if k' = k then some v else d k'

/-- `if k in d: del d[k]` (a plain `del` on a present key behaves the
same; on an absent key the guarded form is a no-op). -/
def dictDel {κ α : Type} [DecidableEq κ] (d : PyDict κ α) (k : κ) :
    PyDict κ α :=
  fun k' => if k' = k then none else d k'

/-- The read of `best_slots_cache` performed by the next evaluation cycle
for a (monitoring, warehouse) pair:
`self.best_slots_cache.get(cache_key)` at line 447. -/
def bestSlotLookup (best : PyDict PyKey Slot) (monitoringId warehouseId : Int) :
    Option Slot :=
  best (warehouseCacheKey monitoringId warehouseId)

/-- The write of `best_slots_cache` performed when a better slot is found
(`self.best_slots_cache[cache_key] = best_slot_for_warehouse`, line 452). -/
def bestSlotStore (best : PyDict PyKey Slot) (monitoringId warehouseId : Int)
    (s : Slot) : PyDict PyKey Slot :=
  dictSet best (warehouseCacheKey monitoringId warehouseId) s

/-- The `best_slots_cache` part of `SlotMonitorService._clear_slot_cache`
(lines 925-927): `if monitoring_id in self.best_slots_cache:
del self.best_slots_cache[monitoring_id]` — the deleted key is the
integer `monitoring_id`. -/
def clearSlotCacheBest (best : PyDict PyKey Slot) (monitoringId : Int) :
    PyDict PyKey Slot :=
  dictDel best (.pint monitoringId)

/-- The `booking_attempts_cache` part of
`SlotMonitorService._clear_slot_cache` (lines 929-931). -/
def clearSlotCacheAttempts (attempts : PyDict Int Int) (monitoringId : Int) :
    PyDict Int Int :=
  dictDel attempts monitoringId

/-- Outcome of one call to `BookingService.book_slot` as observed by
`_attempt_booking_with_retry`:
* `success` — the call returned `(True, message)`;
* `businessFailure` — the call returned `(False, message)` (handled in the
  `else` branch at line 762: the episode ends at once);
* `retryableError` — a `BookingServiceError` whose message contains one of
  the retryable keywords (stale element / timeout / element not found /
  element not clickable);
* `terminalError` — any other `BookingServiceError`, or an unexpected
  exception (both end the episode at once). -/
inductive BookOutcome
  | success
  | businessFailure
  | retryableError
  | terminalError
deriving DecidableEq, Repr

/-- How a booking episode ended. -/
inductive EpisodeEnd
  | booked
  | failed
deriving DecidableEq, Repr

/-- One performed attempt of a booking episode: its 1-based attempt
number, the sleep (seconds) that preceded the `book_slot` call, and the
outcome of the call. -/
structure AttemptStep where
  attemptNo : Nat
  delayBefore : Nat
  outcome : BookOutcome
deriving DecidableEq, Repr

/-- `max_attempts = 3` in `_attempt_booking_with_retry`. -/
def maxAttempts : Nat := 3

/-- The recursion of `SlotMonitorService._attempt_booking_with_retry`
(lines 700-916), driven by `booking_attempts_cache`.  `cache` is the
counter value read on entry (`self.booking_attempts_cache.get(id, 0)`),
so the current call is attempt `cache + 1` and its outcome is
`outcomes cache` (`outcomes k` being the outcome of the (k+1)-th
`book_slot` call); `delay` is the sleep that preceded the current call
(0 on the first entry, `asyncio.sleep(3)` before each recursive
re-entry).  The fuel only makes the recursion structural; the episode is
always run with more fuel than the `attempt < max_attempts` guard can
consume, so the guard, not the fuel, is what bounds the attempts.  The
result is the list of performed attempts and how the episode ended. -/
def bookingEpisodeAux (outcomes : Nat → BookOutcome) :
    Nat → Nat → Nat → List AttemptStep × EpisodeEnd
  | 0, _, _ => ([], .failed)
  | fuel + 1, cache, delay =>
    let step : AttemptStep :=
      { attemptNo := cache + 1, delayBefore := delay,
        outcome := outcomes cache }
    match outcomes cache with
    | .success => ([step], .booked)
    | .businessFailure => ([step], .failed)
    | .terminalError => ([step], .failed)
    | .retryableError =>
      if cache + 1 < maxAttempts then
        let rest := bookingEpisodeAux outcomes fuel (cache + 1) 3
        (step :: rest.1, rest.2)
      else ([step], .failed)

/-- A whole booking episode: the counter starts at 0 (the cache entry was
cleared when the previous episode ended) and the first call is made with
no retry delay. -/
def bookingEpisode (outcomes : Nat → BookOutcome) :
    List AttemptStep × EpisodeEnd :=
  bookingEpisodeAux outcomes (maxAttempts + 1) 0 0

/-- `SlotMonitoringRepository.add_failed_booking_date` (lines 196-233).
The persisted `failed_booking_dates` of each monitoring is a JSON list;
`db mid = none` means monitoring `mid` does not exist (the function
returns `False`), and an SQL `NULL` list is already collapsed to `[]`
(the code reads `monitoring.failed_booking_dates or []`).  Returns the
updated store and the function's boolean result. -/
def addFailedBookingDate (db : PyDict Int (List Int)) (monitoringId : Int)
    (failedDate : Int) : PyDict Int (List Int) × Bool :=
  match db monitoringId with
  | none => (db, false)
  | some failedDates =>
    if failedDate ∈ failedDates then (db, true)
    else (dictSet db monitoringId (failedDates ++ [failedDate]), true)

/-- Folding a sequence of `add_failed_booking_date` calls for one
monitoring over the store. -/
def addFailedDatesSeq (db : PyDict Int (List Int)) (monitoringId : Int)
    (dates : List Int) : PyDict Int (List Int) :=
  dates.foldl (fun s d => (addFailedBookingDate s monitoringId d).1) db

/-- The observable state of `SlotMonitorService` plus the persisted
monitoring statuses: the worker-task registry, the three in-memory caches
and the database rows, as read by `_monitoring_loop` and mutated by
`_stop_monitoring_for_user`. -/
structure ServiceState where
  tasks : List Int
  notifiedSlots : PyDict Int (List String)
  bestSlots : PyDict PyKey Slot
  bookingAttempts : PyDict Int Int
  dbStatus : PyDict Int MStatus

/-- `_stop_monitoring_for_user`, line 66: mark the monitoring as being
deleted in the attempts cache
(`self.booking_attempts_cache[monitoring_id] = -1`). -/
def stopMarkRetiring (s : ServiceState) (monitoringId : Int) : ServiceState :=
  { s with bookingAttempts := dictSet s.bookingAttempts monitoringId (-1) }

/-- `_stop_monitoring_for_user`, lines 69-72: pop and cancel the worker
task. -/
def stopCancelTask (s : ServiceState) (monitoringId : Int) : ServiceState :=
  { s with tasks := s.tasks.erase monitoringId }

/-- `_stop_monitoring_for_user`, lines 75-81: delete the monitoring's
entries from all three caches — including the `-1` "retiring" mark that
line 66 just wrote into `booking_attempts_cache`. -/
def stopClearCaches (s : ServiceState) (monitoringId : Int) : ServiceState :=
  { s with
    notifiedSlots := dictDel s.notifiedSlots monitoringId
    bestSlots := dictDel s.bestSlots (.pint monitoringId)
    bookingAttempts := dictDel s.bookingAttempts monitoringId }

/-- `_stop_monitoring_for_user`, lines 84-102: delete the monitoring row
from the database (no status update precedes the delete). -/
def stopDeleteFromDb (s : ServiceState) (monitoringId : Int) : ServiceState :=
  { s with dbStatus := dictDel s.dbStatus monitoringId }

/-- The whole of `_stop_monitoring_for_user` on the success path, in
source order.  The database delete involves awaits, so the state after
`stopClearCaches` but before `stopDeleteFromDb` is visible to a
concurrently scheduled `_monitoring_loop` iteration. -/
def stopMonitoringForUser (s : ServiceState) (monitoringId : Int) :
    ServiceState :=
  stopDeleteFromDb
    (stopClearCaches (stopCancelTask (stopMarkRetiring s monitoringId)
      monitoringId) monitoringId) monitoringId

/-- The spawn decision of one `_monitoring_loop` iteration for one
monitoring id (lines 134-156): a worker task is created iff the id has no
running task, the freshly re-read row status is `active`, and the
"retiring" guard passes — `monitoring.id not in self.booking_attempts_cache
or self.booking_attempts_cache.get(monitoring.id, 0) != -1`. -/
def reconcileWouldSpawn (s : ServiceState) (monitoringId : Int) : Bool :=
  monitoringId ∉ s.tasks
    && s.dbStatus monitoringId == some .active
    && !(s.bookingAttempts monitoringId == some (-1))

/-- An error raised by `WildberriesAPI._make_request`:
`WildberriesAuthError` is a subclass of `WildberriesAPIError`, so both are
caught by the `except WildberriesAPIError` clause in
`_check_slots_for_monitoring`; only the message distinguishes them
there. -/
inductive WBError
  | apiError (msg : List Char)
  | authError (msg : List Char)
deriving DecidableEq, Repr

/-- `str(e)` — the message of either error class. -/
def errMsg : WBError → List Char
  | .apiError m => m
  | .authError m => m

/-- Python `str.startswith` on character lists. -/
def charsStartsWith : List Char → List Char → Bool
  | [], _ => true
  | _ :: _, [] => false
  | a :: pat, b :: s => a == b && charsStartsWith pat s

/-- Python's `pat in s` substring test on character lists. -/
def charsContains (pat : List Char) : List Char → Bool
  | [] => pat.isEmpty
  | c :: rest => charsStartsWith pat (c :: rest) || charsContains pat rest

/-- Python `str.lower` (the messages' Cyrillic letters that matter are
already lower-case, so ASCII lowering is the behaviour the checks rely
on). -/
def charsLower (s : List Char) : List Char :=
  s.map Char.toLower

/-- The message of the `WildberriesAuthError` raised on HTTP 401
(`_make_request`, line 100). -/
def authError401 : WBError :=
  .authError "Неверный API токен".toList

/-- The message of the `WildberriesAuthError` raised on HTTP 403
(`_make_request`, line 102). -/
def authError403 : WBError :=
  .authError "Доступ запрещен. Проверьте права API токена".toList

/-- The `WildberriesAPIError` raised on HTTP 429 (`_make_request`,
line 106), parameterised by the `Retry-After` header value. -/
def rateLimitError429 (retryAfter : List Char) : WBError :=
  .apiError ("Превышен лимит запросов. Повторите через ".toList
    ++ retryAfter ++ " секунд".toList)

/-- What `_check_slots_for_monitoring` does with a `WildberriesAPIError`
for the current cycle (lines 241-250): an extended
`asyncio.sleep(120)` when the lowered message contains
"лимит запросов" or "rate limit", otherwise only a log line — in both
branches the function returns normally and the worker loop continues. -/
inductive CycleErrorReaction
  | pause120
  | logOnly
deriving DecidableEq, Repr

/-- The classification in the `except WildberriesAPIError` clause of
`_check_slots_for_monitoring`. -/
def checkSlotsErrorReaction (e : WBError) : CycleErrorReaction :=
  if charsContains "лимит запросов".toList (charsLower (errMsg e))
      || charsContains "rate limit".toList (charsLower (errMsg e)) then
    .pause120
  else
    .logOnly

/-- What the body of one `_monitor_slots_for_user` cycle decides
(lines 170-206): `break` out of the loop, or fall through to
`asyncio.sleep(SLOT_CHECK_INTERVAL)` and iterate again, having slept
`extraPause` extra seconds inside `_check_slots_for_monitoring`. -/
inductive WorkerCycleResult
  | stopWorker
  | continueLoop (extraPause : Nat)
deriving DecidableEq, Repr

/-- One cycle of `_monitor_slots_for_user`: the loop `break`s only when
the re-read monitoring is no longer active or the owner has no decryptable
token; a query error never breaks it — `_check_slots_for_monitoring`
swallows `WildberriesAPIError` (with the 120 s pause for throttling
messages) and the loop proceeds to the next iteration. -/
def workerCycle (stillActive : Bool) (hasToken : Bool)
    (queryError : Option WBError) : WorkerCycleResult :=
  if stillActive = false then .stopWorker
  else if hasToken = false then .stopWorker
  else
    match queryError with
    | none => .continueLoop 0
    | some e =>
      match checkSlotsErrorReaction e with
      | .pause120 => .continueLoop 120
      | .logOnly => .continueLoop 0

/-- A `slot_monitoring` row as seen by the startup sweep in
`app/bot/main.py`: just its primary key and status. -/
structure MonRow where
  id : Int
  status : MStatus
deriving DecidableEq, Repr

/-- `SlotMonitoringRepository.get_all_active_monitorings`: every row
whose status is `active`. -/
def getAllActiveMonitorings (db : List MonRow) : List MonRow :=
  db.filter (fun r => r.status == .active)

/-- `SlotMonitoringRepository.update_monitoring_status`: an SQL `UPDATE …
WHERE id = monitoring_id` setting the status. -/
def updateMonitoringStatus (db : List MonRow) (monitoringId : Int)
    (st : MStatus) : List MonRow :=
  db.map (fun r => if r.id = monitoringId then { r with status := st } else r)

/-- `clear_all_active_monitorings` in `app/bot/main.py` (lines 21-75):
fetch every active monitoring, then set each one's status to `stopped`.
`main` awaits this before `start_monitoring` launches the reconciliation
loop. -/
def clearAllActiveMonitorings (db : List MonRow) : List MonRow :=
  ((getAllActiveMonitorings db).map (fun r => r.id)).foldl
    (fun d i => updateMonitoringStatus d i .stopped) db

/-- The grant logic of `WildberriesAPI._ensure_supplies_rate_limit`
executed by a single caller with no interleaving: entering at wall-clock
time `t` with `_last_supplies_request = last`, the caller proceeds at
`last + 10` when less than `_supplies_min_interval = 10` seconds have
elapsed (it sleeps exactly the deficit, and `time.time()` on waking is the
wake time), else immediately at `t`; `_last_supplies_request` is then set
to that moment. -/
def rlGrantTime (last t : ℚ) : ℚ :=
  if t - last < 10 then last + 10 else t

/-- Granted call times for a sequence of callers that go through the rate
limiter one after another (each enters only after the previous grant
completed): the state is the shared `_last_supplies_request`. -/
def rlSeqGrants (last : ℚ) : List ℚ → List ℚ
  | [] => []
  | t :: ts =>
    let g := rlGrantTime last t
    g :: rlSeqGrants g ts

/-- The phase of one coroutine inside
`_ensure_supplies_rate_limit`: not yet entered, suspended in
`asyncio.sleep` until `wake`, or already granted (proceeding to the HTTP
request) at time `g`. -/
inductive RLPhase
  | notEntered
  | sleepingUntil (wake : ℚ)
  | granted (g : ℚ)
deriving DecidableEq, Repr

/-- The shared rate-limiter state plus the per-coroutine phases:
`last` is `_last_supplies_request`, `now` the wall clock, `procs` pairs
each coroutine's entry time with its phase, and `grants` lists the grant
times in the order the calls were granted. -/
structure RLSystem where
  last : ℚ
  now : ℚ
  procs : List (ℚ × RLPhase)
  grants : List ℚ
deriving DecidableEq, Repr

/-- A scheduler event: coroutine `i` reaches
`_ensure_supplies_rate_limit` (at its entry time), or a sleeping
coroutine `i` is resumed by the event loop (at its wake time). -/
inductive RLEvent
  | enter (i : Nat)
  | wake (i : Nat)
deriving DecidableEq, Repr

/-- One cooperative step of the shared rate limiter.  `enter i` runs the
body atomically up to the only suspension point: the caller reads `last`;
if fewer than 10 seconds have elapsed it computes its sleep and suspends
(writing nothing), otherwise it sets `last := time.time()` and is granted
at once.  `wake i` resumes a sleeping caller at its wake time: it sets
`last := time.time()` (the wake time) and is granted.  Steps preserve
wall-clock monotonicity (`none` marks an inadmissible schedule). -/
def rlStep (s : RLSystem) : RLEvent → Option RLSystem
  | .enter i =>
    match s.procs.get? i with
    | some (t, .notEntered) =>
      if s.now ≤ t then
        if t - s.last < 10 then
          some { s with now := t,
                        procs := s.procs.set i (t, .sleepingUntil (s.last + 10)) }
        else
          some { s with now := t,
                        procs := s.procs.set i (t, .granted t),
                        last := t,
                        grants := s.grants ++ [t] }
      else none
    | _ => none
  | .wake i =>
    match s.procs.get? i with
    | some (t, .sleepingUntil w) =>
      if s.now ≤ w then
        some { s with now := w,
                      procs := s.procs.set i (t, .granted w),
                      last := w,
                      grants := s.grants ++ [w] }
      else none
    | _ => none

/-- Run a schedule of rate-limiter events. -/
def rlRun : RLSystem → List RLEvent → Option RLSystem
  | s, [] => some s
  | s, e :: es =>
    match rlStep s e with
    | none => none
    | some s' => rlRun s' es

/-- The minimum-spacing property the spec claims for the grant times:
every grant is at least 10 seconds after the previous one. -/
def rlSpaced (grants : List ℚ) : Prop :=
  List.Chain' (fun a b => a + 10 ≤ b) grants

/-! ### Concrete instances used by witnesses and counterexamples -/

/-- A monitoring with plain constraints: coefficients in [0, 2],
warehouse 5, window days 100-110. -/
def sampleMonitoring : Monitoring :=
  { id := 1
    coefficientMin := 0
    coefficientMax := 2
    logisticsShoulder := 0
    boxTypeId := none
    warehouseIds := [5]
    orderNumber := some "ORD-1"
    status := .active
    dateFrom := some 100
    dateTo := some 110
    failedBookingDates := []
    createdAt := 90 }

/-- A raw record whose `date` string is empty: every other check passes. -/
def emptyDateRaw : RawCoeff :=
  { coefficient := some 1
    allowUnload := true
    warehouseID := some 5
    warehouseName := some "Коледино"
    date := .empty
    boxTypeID := none
    boxTypeName := none }

/-- A raw record with a parsed in-window date. -/
def validDateRaw : RawCoeff :=
  { coefficient := some 1
    allowUnload := true
    warehouseID := some 5
    warehouseName := some "Коледино"
    date := .valid 105
    boxTypeID := some 2
    boxTypeName := some "Короба"
    }

/-- The slot the filter emits for `validDateRaw`. -/
def validDateSlot : Slot := mkSlotData validDateRaw 1

/-- The slot the filter emits for `emptyDateRaw`. -/
def emptyDateSlot : Slot := mkSlotData emptyDateRaw 1

/-- Slot with coefficient 0 on day 106 (for ranking examples). -/
def rankSlotA : Slot :=
  { warehouseID := some 5, warehouseName := some "Коледино",
    date := .valid 106, coefficient := 0, boxTypeName := none,
    boxTypeID := none, allowUnload := true, available := true }

/-- Slot with coefficient 1 on day 102 (for ranking examples). -/
def rankSlotB : Slot :=
  { warehouseID := some 5, warehouseName := some "Коледино",
    date := .valid 102, coefficient := 1, boxTypeName := none,
    boxTypeID := none, allowUnload := true, available := true }

/-- A `best_slots_cache` holding exactly the per-warehouse record written
by `_process_slots_by_warehouse` for monitoring 1, warehouse 5. -/
def c4BestCache : PyDict PyKey Slot :=
  bestSlotStore (fun _ => none) 1 5 validDateSlot

/-- A `booking_attempts_cache` holding the exhausted counter of
monitoring 1. -/
def c4AttemptsCache : PyDict Int Int :=
  fun i => if i = 1 then some 3 else none

/-- The default step used only as the `List.getD` fallback. -/
def dfltStep : AttemptStep :=
  { attemptNo := 0, delayBefore := 0, outcome := .success }

/-- An adapter that fails retryably on every call. -/
def allRetryable : Nat → BookOutcome := fun _ => .retryableError

/-- A failed-dates store where monitoring 1 has blacklisted day 5. -/
def c5Store : PyDict Int (List Int) :=
  fun i => if i = 1 then some [5] else none

/-- Service state before `_stop_monitoring_for_user 7`: the worker task
runs, the caches are empty, and row 7 is persisted as active. -/
def c6Init : ServiceState :=
  { tasks := [7]
    notifiedSlots := fun _ => none
    bestSlots := fun _ => none
    bookingAttempts := fun _ => none
    dbStatus := fun i => if i = 7 then some .active else none }

/-- State after the retiring mark is set and the task cancelled
(`_stop_monitoring_for_user`, lines 66-72). -/
def c6AfterMark : ServiceState :=
  stopCancelTask (stopMarkRetiring c6Init 7) 7

/-- State after the cache-clearing block (lines 75-81) — the instant
before the database delete begins. -/
def c6AfterClear : ServiceState :=
  stopClearCaches c6AfterMark 7

/-- A two-user database for the startup-sweep witness. -/
def c8Db : List MonRow :=
  [{ id := 1, status := .active }, { id := 2, status := .paused },
   { id := 3, status := .active }]

/-- Three coroutines reaching the rate limiter at times 100, 105 and
106, with `_last_supplies_request` initially 0. -/
def rlDemoInit : RLSystem :=
  { last := 0
    now := 0
    procs := [(100, .notEntered), (105, .notEntered), (106, .notEntered)]
    grants := [] }

/-- An admissible event-loop schedule: coroutine 0 is granted at 100;
coroutines 1 and 2 both read `last = 100`, both sleep until 110, and both
are granted on waking. -/
def rlDemoEvents : List RLEvent :=
  [.enter 0, .enter 1, .enter 2, .wake 1, .wake 2]

/-- The state `rlDemoEvents` leads to. -/
def rlDemoFinal : RLSystem :=
  { last := 110
    now := 110
    procs := [(100, .granted 100), (105, .granted 110), (106, .granted 110)]
    grants := [100, 110, 110] }

/-! ### Helper lemmas -/

theorem boxTypeCheck_eq_some {m : Monitoring} {r : RawCoeff} {c : ℚ} {s : Slot}
    (h : boxTypeCheck m r c = some s) :
    s = mkSlotData r c ∧ ∀ b, m.boxTypeId = some b → r.boxTypeID = some b := by
  unfold boxTypeCheck at h
  split at h
  next b hb =>
    split at h
    next hbt =>
      refine ⟨(Option.some.inj h).symm, ?_⟩
      intro b' hb'
      rw [hb] at hb'
      cases hb'
      exact hbt
    next hbt => cases h
  next hb =>
    refine ⟨(Option.some.inj h).symm, ?_⟩
    intro b' hb'
    rw [hb] at hb'
    cases hb'

/-- Everything that holds of a record the filter body accepts. -/
theorem filterStep_eq_some {m : Monitoring} {r : RawCoeff} {s : Slot}
    (h : filterStep m r = some s) :
    s = mkSlotData r (pyCoefficient r) ∧
    0 ≤ s.coefficient ∧ s.coefficient ≤ 20 ∧
    m.coefficientMin ≤ s.coefficient ∧ s.coefficient ≤ m.coefficientMax ∧
    s.allowUnload = true ∧
    (∃ w, s.warehouseID = some w ∧ w ∈ m.warehouseIds) ∧
    s.date ≠ .invalid ∧
    (∀ d, s.date = .valid d →
      effectiveMinDate m ≤ d ∧ (∀ mx, m.dateTo = some mx → d ≤ mx) ∧
      d ∉ m.failedBookingDates) ∧
    (∀ b, m.boxTypeId = some b → s.boxTypeID = some b) := by
  unfold filterStep at h
  split at h
  · cases h
  next hrange =>
  split at h
  · cases h
  next hunload =>
  split at h
  · cases h
  next hmon =>
  push_neg at hrange
  rw [not_not] at hmon
  simp only [Bool.not_eq_false] at hunload
  split at h
  · cases h
  next w hw =>
  split at h
  · cases h
  next hwin =>
  rw [not_not] at hwin
  split at h
  next hdate => cases h
  next hdate =>
    obtain ⟨hs, hbox⟩ := boxTypeCheck_eq_some h
    subst hs
    refine ⟨rfl, hrange.1, hrange.2, hmon.1, hmon.2, hunload, ⟨w, hw, hwin⟩,
      ?_, ?_, hbox⟩
    · show r.date ≠ .invalid
      rw [hdate]
      intro hc
      cases hc
    · intro d hd
      rw [show (mkSlotData r (pyCoefficient r)).date = r.date from rfl, hdate] at hd
      cases hd
  next d hdate =>
    split at h
    · cases h
    next hmin =>
    split at h
    · cases h
    next hdt =>
    split at h
    · cases h
    next hfail =>
    obtain ⟨hs, hbox⟩ := boxTypeCheck_eq_some h
    subst hs
    refine ⟨rfl, hrange.1, hrange.2, hmon.1, hmon.2, hunload, ⟨w, hw, hwin⟩,
      ?_, ?_, hbox⟩
    · show r.date ≠ .invalid
      rw [hdate]
      intro hc
      cases hc
    · intro d' hd'
      rw [show (mkSlotData r (pyCoefficient r)).date = r.date from rfl, hdate] at hd'
      cases hd'
      refine ⟨le_of_not_lt hmin, ?_, hfail⟩
      intro mx hmx
      unfold exceedsDateTo at hdt
      rw [hmx] at hdt
      simpa using hdt



/-- Claim C1, counterexample: the filter is not guaranteed to enforce the
date conditions on every accepted candidate.  A raw record whose `date`
string is empty passes every other check and is accepted, yet carries no
date at all, so "its date is at least the effective minimum date" fails
for it.  Concretely, `emptyDateRaw` is accepted for `sampleMonitoring`
although no day `d` with `date = valid d` above the effective minimum
exists for it. -/
theorem filter_accepts_record_without_date :
    emptyDateSlot ∈ filterSuitableCoefficients [emptyDateRaw] sampleMonitoring ∧
    ¬ ∃ d, emptyDateSlot.date = DateField.valid d ∧
        effectiveMinDate sampleMonitoring ≤ d ∧
        (∀ mx, sampleMonitoring.dateTo = some mx → d ≤ mx) ∧
        d ∉ sampleMonitoring.failedBookingDates := by
  constructor
  · have hlist : filterSuitableCoefficients [emptyDateRaw] sampleMonitoring
        = [emptyDateSlot] := rfl
    rw [hlist]
    exact List.mem_singleton.mpr rfl
  · rintro ⟨d, hd, -⟩
    simp [emptyDateSlot, emptyDateRaw, mkSlotData] at hd

/-- Claim C1, amended: every candidate accepted by
`_filter_suitable_coefficients` has its coefficient within the
monitoring's inclusive bounds, unload allowed, its warehouse id in the
monitoring's warehouse set, and its box type equal to the monitoring's
constraint when that is set; and when its raw date field is present
(parsed to a day `d`), `d` is at least the effective minimum date, at
most `date_to` when that is set, and not in the failed-dates set.  The
date conditions hold only conditionally because an empty date string
skips the date checks (see the counterexample). -/
theorem filter_guarantees (m : Monitoring) (coeffs : List RawCoeff) (s : Slot)
    (h : s ∈ filterSuitableCoefficients coeffs m) :
    (m.coefficientMin ≤ s.coefficient ∧ s.coefficient ≤ m.coefficientMax) ∧
    s.allowUnload = true ∧
    (∃ w, s.warehouseID = some w ∧ w ∈ m.warehouseIds) ∧
    (∀ d, s.date = DateField.valid d →
      effectiveMinDate m ≤ d ∧ (∀ mx, m.dateTo = some mx → d ≤ mx) ∧
      d ∉ m.failedBookingDates) ∧
    (∀ b, m.boxTypeId = some b → s.boxTypeID = some b) := by
  obtain ⟨r, -, hr⟩ := List.mem_filterMap.mp h
  obtain ⟨-, -, -, h1, h2, h3, h4, -, h5, h6⟩ := filterStep_eq_some hr
  exact ⟨⟨h1, h2⟩, h3, h4, h5, h6⟩

theorem filter_guarantees_witness :
    validDateSlot ∈ filterSuitableCoefficients [validDateRaw] sampleMonitoring ∧
    ((sampleMonitoring.coefficientMin ≤ validDateSlot.coefficient ∧
      validDateSlot.coefficient ≤ sampleMonitoring.coefficientMax) ∧
    validDateSlot.allowUnload = true ∧
    (∃ w, validDateSlot.warehouseID = some w ∧ w ∈ sampleMonitoring.warehouseIds) ∧
    (∀ d, validDateSlot.date = DateField.valid d →
      effectiveMinDate sampleMonitoring ≤ d ∧
      (∀ mx, sampleMonitoring.dateTo = some mx → d ≤ mx) ∧
      d ∉ sampleMonitoring.failedBookingDates) ∧
    (∀ b, sampleMonitoring.boxTypeId = some b → validDateSlot.boxTypeID = some b)) :=
  ⟨by rw [show filterSuitableCoefficients [validDateRaw] sampleMonitoring
        = [validDateSlot] from rfl]; exact List.mem_singleton.mpr rfl,
   filter_guarantees sampleMonitoring [validDateRaw] validDateSlot
     (by rw [show filterSuitableCoefficients [validDateRaw] sampleMonitoring
        = [validDateSlot] from rfl]; exact List.mem_singleton.mpr rfl)⟩

/-- Claim C10: every candidate accepted by the filter has a coefficient
in [0, 20] — the hard-coded range check at the top of the loop body —
as well as within the monitoring's own [coefficient_min,
coefficient_max] bounds, hence in the intersection of the two ranges. -/
theorem filter_coefficient_range (m : Monitoring) (coeffs : List RawCoeff)
    (s : Slot) (h : s ∈ filterSuitableCoefficients coeffs m) :
    (0 ≤ s.coefficient ∧ s.coefficient ≤ 20) ∧
    (m.coefficientMin ≤ s.coefficient ∧ s.coefficient ≤ m.coefficientMax) := by
  obtain ⟨r, -, hr⟩ := List.mem_filterMap.mp h
  obtain ⟨-, h0, h20, h1, h2, -⟩ := filterStep_eq_some hr
  exact ⟨⟨h0, h20⟩, h1, h2⟩

theorem filter_coefficient_range_witness :
    validDateSlot ∈ filterSuitableCoefficients [validDateRaw] sampleMonitoring ∧
    ((0 ≤ validDateSlot.coefficient ∧ validDateSlot.coefficient ≤ 20) ∧
     (sampleMonitoring.coefficientMin ≤ validDateSlot.coefficient ∧
      validDateSlot.coefficient ≤ sampleMonitoring.coefficientMax)) :=
  ⟨by rw [show filterSuitableCoefficients [validDateRaw] sampleMonitoring
        = [validDateSlot] from rfl]; exact List.mem_singleton.mpr rfl,
   filter_coefficient_range sampleMonitoring [validDateRaw] validDateSlot
     (by rw [show filterSuitableCoefficients [validDateRaw] sampleMonitoring
        = [validDateSlot] from rfl]; exact List.mem_singleton.mpr rfl)⟩



/-- Claim C2: for two candidate slots with parsed dates, `_is_better_slot`
judges the new slot strictly better than the current one exactly when its
coefficient is strictly lower, or the coefficients are equal and its date
is strictly closer in absolute days to the effective minimum date
(`date_from` when set, else `created_at + logistics_shoulder`); a strictly
lower coefficient wins regardless of the dates. -/
theorem isBetterSlot_iff (m : Monitoring) (a b : Slot) (da dbv : Int)
    (ha : a.date = .valid da) (hb : b.date = .valid dbv) :
    isBetterSlot a (some b) m = true ↔
      (a.coefficient < b.coefficient ∨
        (a.coefficient = b.coefficient ∧
          (da - effectiveMinDate m).natAbs < (dbv - effectiveMinDate m).natAbs)) := by
  simp only [isBetterSlot]
  rw [ha, hb]
  by_cases h1 : a.coefficient < b.coefficient
  · simp [h1]
  · by_cases h2 : b.coefficient < a.coefficient
    · have hne : a.coefficient ≠ b.coefficient := ne_of_gt h2
      simp [h1, h2, hne]
    · have heq : a.coefficient = b.coefficient :=
        le_antisymm (not_lt.mp h2) (not_lt.mp h1)
      simp [h1, h2, heq]

theorem isBetterSlot_iff_witness :
    rankSlotA.date = DateField.valid 106 ∧ rankSlotB.date = DateField.valid 102 ∧
    (isBetterSlot rankSlotA (some rankSlotB) sampleMonitoring = true ↔
      (rankSlotA.coefficient < rankSlotB.coefficient ∨
        (rankSlotA.coefficient = rankSlotB.coefficient ∧
          (106 - effectiveMinDate sampleMonitoring).natAbs
            < (102 - effectiveMinDate sampleMonitoring).natAbs))) :=
  ⟨rfl, rfl, isBetterSlot_iff sampleMonitoring rankSlotA rankSlotB 106 102 rfl rfl⟩



theorem bookingEpisodeAux_len_pos (outcomes : Nat → BookOutcome)
    (fuel cache delay : Nat) (hf : 1 ≤ fuel) :
    1 ≤ (bookingEpisodeAux outcomes fuel cache delay).1.length := by
  cases fuel with
  | zero => omega
  | succ f =>
    rcases ho : outcomes cache <;>
      simp only [bookingEpisodeAux, ho] <;>
      try simp
    split <;> simp

theorem bookingEpisodeAux_len_le (outcomes : Nat → BookOutcome) :
    ∀ fuel cache delay, cache < maxAttempts →
      (bookingEpisodeAux outcomes fuel cache delay).1.length + cache
        ≤ maxAttempts := by
  intro fuel
  induction fuel with
  | zero => intro cache delay hc; simp [bookingEpisodeAux]; omega
  | succ f ih =>
    intro cache delay hc
    rcases ho : outcomes cache
    case success => simp [bookingEpisodeAux, ho]; omega
    case businessFailure => simp [bookingEpisodeAux, ho]; omega
    case terminalError => simp [bookingEpisodeAux, ho]; omega
    case retryableError =>
      simp only [bookingEpisodeAux, ho]
      split
      next hg =>
        have hrec := ih (cache + 1) 3 hg
        simp only [List.length_cons]
        omega
      next hg => simp; omega

theorem bookingEpisodeAux_nonlast_retryable (outcomes : Nat → BookOutcome) :
    ∀ fuel cache delay i,
      i + 1 < (bookingEpisodeAux outcomes fuel cache delay).1.length →
      ((bookingEpisodeAux outcomes fuel cache delay).1.getD i dfltStep).outcome
        = .retryableError := by
  intro fuel
  induction fuel with
  | zero => intro cache delay i hi; simp [bookingEpisodeAux] at hi
  | succ f ih =>
    intro cache delay i hi
    rcases ho : outcomes cache
    case success => simp [bookingEpisodeAux, ho] at hi
    case businessFailure => simp [bookingEpisodeAux, ho] at hi
    case terminalError => simp [bookingEpisodeAux, ho] at hi
    case retryableError =>
      simp only [bookingEpisodeAux, ho] at hi ⊢
      by_cases hg : cache + 1 < maxAttempts
      · rw [if_pos hg] at hi ⊢
        cases i with
        | zero => simp [ho]
        | succ j =>
          simp only [List.length_cons] at hi
          simp only [List.getD_cons_succ]
          exact ih (cache + 1) 3 j (by omega)
      · rw [if_neg hg] at hi
        simp at hi

theorem bookingEpisodeAux_numbering (outcomes : Nat → BookOutcome) :
    ∀ fuel cache delay i,
      i < (bookingEpisodeAux outcomes fuel cache delay).1.length →
      ((bookingEpisodeAux outcomes fuel cache delay).1.getD i dfltStep).attemptNo
          = cache + i + 1 ∧
      ((bookingEpisodeAux outcomes fuel cache delay).1.getD i dfltStep).delayBefore
          = if i = 0 then delay else 3 := by
  intro fuel
  induction fuel with
  | zero => intro cache delay i hi; simp [bookingEpisodeAux] at hi
  | succ f ih =>
    intro cache delay i hi
    rcases ho : outcomes cache
    case retryableError =>
      simp only [bookingEpisodeAux, ho] at hi ⊢
      by_cases hg : cache + 1 < maxAttempts
      · rw [if_pos hg] at hi ⊢
        cases i with
        | zero => simp
        | succ j =>
          simp only [List.length_cons] at hi
          simp only [List.getD_cons_succ]
          have hj := ih (cache + 1) 3 j (by omega)
          refine ⟨by rw [hj.1]; ring, ?_⟩
          rw [hj.2]
          by_cases hj0 : j = 0 <;> simp [hj0]
      · rw [if_neg hg] at hi ⊢
        simp at hi
        subst hi
        simp
    all_goals {
      simp only [bookingEpisodeAux, ho] at hi ⊢
      simp at hi
      subst hi
      simp
    }

theorem bookingEpisodeAux_retry_continues (outcomes : Nat → BookOutcome) :
    ∀ fuel cache delay i,
      maxAttempts ≤ cache + fuel →
      i < (bookingEpisodeAux outcomes fuel cache delay).1.length →
      ((bookingEpisodeAux outcomes fuel cache delay).1.getD i dfltStep).outcome
        = .retryableError →
      cache + i + 1 < maxAttempts →
      i + 1 < (bookingEpisodeAux outcomes fuel cache delay).1.length := by
  intro fuel
  induction fuel with
  | zero => intro cache delay i hf hi; simp [bookingEpisodeAux] at hi
  | succ f ih =>
    intro cache delay i hf hi hout hlt
    rcases ho : outcomes cache
    case success =>
      simp only [bookingEpisodeAux, ho] at hi hout
      simp at hi
      subst hi
      simp at hout
    case businessFailure =>
      simp only [bookingEpisodeAux, ho] at hi hout
      simp at hi
      subst hi
      simp at hout
    case terminalError =>
      simp only [bookingEpisodeAux, ho] at hi hout
      simp at hi
      subst hi
      simp at hout
    case retryableError =>
      simp only [bookingEpisodeAux, ho] at hi hout ⊢
      by_cases hg : cache + 1 < maxAttempts
      · rw [if_pos hg] at hi hout ⊢
        cases i with
        | zero =>
          simp only [List.length_cons]
          have := bookingEpisodeAux_len_pos outcomes f (cache + 1) 3 (by omega)
          omega
        | succ j =>
          simp only [List.length_cons] at hi ⊢
          rw [List.getD_cons_succ] at hout
          have := ih (cache + 1) 3 j (by omega) (by omega) hout (by omega)
          omega
      · rw [if_neg hg] at hi hout
        simp at hi
        subst hi
        omega



theorem bookingEpisodeAux_failed_end (outcomes : Nat → BookOutcome) :
    ∀ fuel cache delay,
      (∀ i, i < (bookingEpisodeAux outcomes fuel cache delay).1.length →
        ((bookingEpisodeAux outcomes fuel cache delay).1.getD i dfltStep).outcome
          ≠ BookOutcome.success) →
      (bookingEpisodeAux outcomes fuel cache delay).2 = EpisodeEnd.failed := by
  intro fuel
  induction fuel with
  | zero => intro cache delay h; rfl
  | succ f ih =>
    intro cache delay h
    rcases ho : outcomes cache
    case success =>
      simp only [bookingEpisodeAux, ho] at h
      have h0 := h 0 (by simp)
      simp at h0
    case businessFailure => simp only [bookingEpisodeAux, ho]
    case terminalError => simp only [bookingEpisodeAux, ho]
    case retryableError =>
      simp only [bookingEpisodeAux, ho] at h ⊢
      by_cases hg : cache + 1 < maxAttempts
      · rw [if_pos hg] at h ⊢
        refine ih (cache + 1) 3 ?_
        intro i hi
        have hh := h (i + 1) (by simp only [List.length_cons]; omega)
        simpa [List.getD_cons_succ] using hh
      · rw [if_neg hg]

/-- Claim C3: a booking episode started with a cleared attempt counter
makes at most `max_attempts = 3` attempts; every attempt that is followed
by another one failed retryably (so a terminal failure, a business
refusal or a success ends the episode at once); attempts are numbered
1, 2, 3 and every re-attempt is preceded by the fixed 3-second delay (the
first call by none); a retryable failure on attempt `i + 1 <
max_attempts` does trigger attempt `i + 2`; and when no attempt
succeeded the episode ends as failed. -/
theorem bookingEpisode_retry_policy (outcomes : Nat → BookOutcome) :
    (bookingEpisode outcomes).1.length ≤ maxAttempts ∧
    (∀ i, i + 1 < (bookingEpisode outcomes).1.length →
      ((bookingEpisode outcomes).1.getD i dfltStep).outcome = .retryableError) ∧
    (∀ i, i < (bookingEpisode outcomes).1.length →
      ((bookingEpisode outcomes).1.getD i dfltStep).attemptNo = i + 1 ∧
      ((bookingEpisode outcomes).1.getD i dfltStep).delayBefore
        = if i = 0 then 0 else 3) ∧
    (∀ i, i < (bookingEpisode outcomes).1.length →
      ((bookingEpisode outcomes).1.getD i dfltStep).outcome = .retryableError →
      i + 1 < maxAttempts →
      i + 1 < (bookingEpisode outcomes).1.length) ∧
    ((∀ i, i < (bookingEpisode outcomes).1.length →
      ((bookingEpisode outcomes).1.getD i dfltStep).outcome ≠ BookOutcome.success) →
      (bookingEpisode outcomes).2 = EpisodeEnd.failed) := by
  refine ⟨?_, ?_, ?_, ?_, ?_⟩
  · have h := bookingEpisodeAux_len_le outcomes (maxAttempts + 1) 0 0
      (by simp [maxAttempts])
    simpa [bookingEpisode] using h
  · intro i hi
    exact bookingEpisodeAux_nonlast_retryable outcomes (maxAttempts + 1) 0 0 i hi
  · intro i hi
    have h := bookingEpisodeAux_numbering outcomes (maxAttempts + 1) 0 0 i hi
    simpa [bookingEpisode] using h
  · intro i hi hout hlt
    exact bookingEpisodeAux_retry_continues outcomes (maxAttempts + 1) 0 0 i
      (by simp [maxAttempts]) hi hout (by omega)
  · intro h
    exact bookingEpisodeAux_failed_end outcomes (maxAttempts + 1) 0 0 h

theorem bookingEpisode_retry_policy_witness :
    (bookingEpisode allRetryable).1.length ≤ maxAttempts ∧
    ((bookingEpisode allRetryable).1.getD 0 dfltStep).outcome
      = BookOutcome.retryableError :=
  ⟨(bookingEpisode_retry_policy allRetryable).1,
   (bookingEpisode_retry_policy allRetryable).2.1 0 (by decide)⟩



/-- Claim C4, code evaluated at the failing input: after an
episode-ending failure `_clear_slot_cache` deletes the integer key
`monitoring_id` from `best_slots_cache`, but `_process_slots_by_warehouse`
reads and writes the cache under the string key
`f"{monitoring_id}_{warehouse_id}"`.  With the per-warehouse record for
monitoring 1 / warehouse 5 cached, the clear leaves that record fully in
place — the next evaluation still sees the stale best slot — while the
booking-attempt counter is indeed cleared. -/
theorem clearSlotCache_keeps_warehouse_record :
    c4BestCache (warehouseCacheKey 1 5) = some validDateSlot ∧
    bestSlotLookup (clearSlotCacheBest c4BestCache 1) 1 5 = some validDateSlot ∧
    clearSlotCacheAttempts c4AttemptsCache 1 1 = none ∧
    c4AttemptsCache 1 = some 3 := by
  refine ⟨?_, ?_, ?_, ?_⟩ <;> rfl

theorem addFailedDatesSeq_nodup (mid : Int) :
    ∀ (ds : List Int) (db : PyDict Int (List Int)),
      (∀ l, db mid = some l → l.Nodup) →
      ∀ l', addFailedDatesSeq db mid ds mid = some l' → l'.Nodup := by
  intro ds
  induction ds with
  | nil =>
    intro db hinv l' h
    exact hinv l' h
  | cons d rest ih =>
    intro db hinv l' h
    simp only [addFailedDatesSeq, List.foldl_cons] at h
    refine ih (addFailedBookingDate db mid d).1 ?_ l' h
    intro l hl
    unfold addFailedBookingDate at hl
    cases hdb : db mid with
    | none =>
      rw [hdb] at hl
      dsimp only at hl
      exact hinv l hl
    | some l0 =>
      have hnd0 := hinv l0 hdb
      rw [hdb] at hl
      dsimp only at hl
      by_cases hmem : d ∈ l0
      · rw [if_pos hmem] at hl
        exact hinv l hl
      · rw [if_neg hmem] at hl
        simp only [dictSet, if_pos rfl] at hl
        cases hl
        simp [List.nodup_append, hnd0, hmem]

/-- Claim C5: `add_failed_booking_date` on an existing monitoring is
idempotent — adding a date already present leaves the stored mapping
unchanged and still returns `True` — and starting from a duplicate-free
list, any sequence of adds keeps the monitoring's stored failed-dates
list duplicate-free. -/
theorem addFailedBookingDate_idempotent (db : PyDict Int (List Int))
    (mid d : Int) (l : List Int) (hex : db mid = some l) :
    (d ∈ l → (addFailedBookingDate db mid d).1 = db ∧
      (addFailedBookingDate db mid d).2 = true) ∧
    (l.Nodup → ∀ ds l', addFailedDatesSeq db mid ds mid = some l' →
      l'.Nodup) := by
  constructor
  · intro hd
    constructor <;> simp [addFailedBookingDate, hex, hd]
  · intro hnd ds l' h
    refine addFailedDatesSeq_nodup mid ds db ?_ l' h
    intro l0 hl0
    rw [hex] at hl0
    cases hl0
    exact hnd

theorem addFailedBookingDate_idempotent_witness :
    c5Store 1 = some [5] ∧
    ((addFailedBookingDate c5Store 1 5).1 = c5Store ∧
     (addFailedBookingDate c5Store 1 5).2 = true) :=
  ⟨rfl, (addFailedBookingDate_idempotent c5Store 1 5 [5] rfl).1 (by decide)⟩

/-- Claim C6, code evaluated at the failing input: in
`_stop_monitoring_for_user`, right after the retiring mark is written the
reconciliation guard would indeed refuse to spawn; but the cache-clearing
block then deletes the `-1` mark itself before the database delete is
issued, and no Stopped status is ever written (the row is deleted
directly), so in the window before the deletion is persisted the
reconciliation guard sees an active row and no mark and would respawn the
worker.  The final composed function equals the step sequence shown. -/
theorem stopMonitoring_retiring_mark_erased :
    c6AfterMark.bookingAttempts 7 = some (-1) ∧
    reconcileWouldSpawn c6AfterMark 7 = false ∧
    c6AfterClear.bookingAttempts 7 = none ∧
    c6AfterClear.dbStatus 7 = some MStatus.active ∧
    reconcileWouldSpawn c6AfterClear 7 = true ∧
    (stopDeleteFromDb c6AfterClear 7).dbStatus 7 = none ∧
    stopMonitoringForUser c6Init 7 = stopDeleteFromDb c6AfterClear 7 := by
  refine ⟨?_, ?_, ?_, ?_, ?_, ?_, ?_⟩ <;> rfl



theorem charsStartsWith_append (pat l tail : List Char)
    (h : charsStartsWith pat l = true) :
    charsStartsWith pat (l ++ tail) = true := by
  induction pat generalizing l with
  | nil => rfl
  | cons a pat ih =>
    cases l with
    | nil => cases h
    | cons b s =>
      simp only [charsStartsWith, Bool.and_eq_true] at h
      simp only [List.cons_append, charsStartsWith, Bool.and_eq_true]
      exact ⟨h.1, ih s h.2⟩

theorem charsContains_append_left (pat l tail : List Char)
    (h : charsContains pat l = true) :
    charsContains pat (l ++ tail) = true := by
  induction l with
  | nil =>
    simp only [charsContains] at h
    have : pat = [] := by
      cases pat
      · rfl
      · cases h
    subst this
    cases tail <;> simp [charsContains, charsStartsWith]
  | cons c rest ih =>
    simp only [charsContains, Bool.or_eq_true] at h
    simp only [List.cons_append, charsContains, Bool.or_eq_true]
    rcases h with h | h
    · exact Or.inl (charsStartsWith_append pat (c :: rest) tail h)
    · exact Or.inr (ih h)

theorem rateLimit_keyword_in_fixed :
    charsContains "лимит запросов".toList
      (charsLower "Превышен лимит запросов. Повторите через ".toList) = true := by
  decide

/-- Claim C7, counterexample: a cycle whose coefficient query fails with
an authentication error (HTTP 401 or 403, raised as
`WildberriesAuthError`) does not stop the worker — the error message
contains no throttling keyword, so `_check_slots_for_monitoring` merely
logs it and the loop continues at the normal cadence with no extended
pause and no surfaced auth-required status. -/
theorem authError_continues_worker :
    workerCycle true true (some authError401)
      = WorkerCycleResult.continueLoop 0 ∧
    workerCycle true true (some authError401) ≠ WorkerCycleResult.stopWorker ∧
    workerCycle true true (some authError403)
      = WorkerCycleResult.continueLoop 0 := by
  refine ⟨?_, ?_, ?_⟩ <;> decide

/-- Claim C7, amended: only throttling errors (the HTTP 429 message
containing "лимит запросов", for any Retry-After value) lead to the
extended 120-second pause for that cycle, with the loop continuing;
authentication errors are logged and the loop likewise continues at its
normal cadence — no query error ever stops the worker.  The worker stops
only when the re-read monitoring is no longer active or the owner has no
usable stored token. -/
theorem workerCycle_error_policy :
    (∀ ra, workerCycle true true (some (rateLimitError429 ra))
        = WorkerCycleResult.continueLoop 120) ∧
    workerCycle true true (some authError401)
      = WorkerCycleResult.continueLoop 0 ∧
    workerCycle true true (some authError403)
      = WorkerCycleResult.continueLoop 0 ∧
    (∀ e, workerCycle true true (some e) ≠ WorkerCycleResult.stopWorker) ∧
    (∀ tok err, workerCycle false tok err = WorkerCycleResult.stopWorker) ∧
    (∀ err, workerCycle true false err = WorkerCycleResult.stopWorker) := by
  refine ⟨?_, by decide, by decide, ?_, ?_, ?_⟩
  · intro ra
    have hcontains : charsContains "лимит запросов".toList
        (charsLower (errMsg (rateLimitError429 ra))) = true := by
      show charsContains "лимит запросов".toList
        (charsLower ("Превышен лимит запросов. Повторите через ".toList
          ++ ra ++ " секунд".toList)) = true
      unfold charsLower
      rw [List.map_append, List.map_append]
      exact charsContains_append_left _ _ _ rateLimit_keyword_in_fixed
    have hr : checkSlotsErrorReaction (rateLimitError429 ra)
        = CycleErrorReaction.pause120 := by
      unfold checkSlotsErrorReaction
      rw [hcontains]
      simp
    unfold workerCycle
    simp [hr]
  · intro e
    unfold workerCycle
    simp only [Bool.true_eq_false, if_false]
    cases checkSlotsErrorReaction e <;> simp
  · intro tok err
    rfl
  · intro err
    rfl

theorem workerCycle_error_policy_witness :
    workerCycle true true (some (rateLimitError429 "60".toList))
      = WorkerCycleResult.continueLoop 120 ∧
    workerCycle true true (some authError401) ≠ WorkerCycleResult.stopWorker :=
  ⟨workerCycle_error_policy.1 "60".toList,
   workerCycle_error_policy.2.2.2.1 authError401⟩



theorem foldl_update_eq_map (ids : List Int) (db : List MonRow) :
    ids.foldl (fun d i => updateMonitoringStatus d i .stopped) db
      = db.map (fun r => ids.foldl
          (fun row i => if row.id = i then { row with status := MStatus.stopped }
            else row) r) := by
  induction ids generalizing db with
  | nil => simp
  | cons i rest ih =>
    simp only [List.foldl_cons]
    rw [ih]
    unfold updateMonitoringStatus
    rw [List.map_map]
    rfl

theorem rowFold_stopped (ids : List Int) (r : MonRow)
    (h : r.status = .stopped) :
    ids.foldl (fun row i => if row.id = i then { row with status := MStatus.stopped }
      else row) r = r := by
  induction ids generalizing r with
  | nil => rfl
  | cons i rest ih =>
    simp only [List.foldl_cons]
    by_cases hid : r.id = i
    · rw [if_pos hid]
      have hrr : ({ r with status := MStatus.stopped } : MonRow) = r := by
        cases r
        simp_all
      rw [hrr]
      exact ih r h
    · rw [if_neg hid]
      exact ih r h

theorem rowFold_of_mem (ids : List Int) (r : MonRow) (h : r.id ∈ ids) :
    ids.foldl (fun row i => if row.id = i then { row with status := MStatus.stopped }
      else row) r = { r with status := MStatus.stopped } := by
  induction ids generalizing r with
  | nil => cases h
  | cons i rest ih =>
    simp only [List.foldl_cons]
    by_cases hid : r.id = i
    · rw [if_pos hid]
      exact rowFold_stopped rest _ rfl
    · rw [if_neg hid]
      rcases List.mem_cons.mp h with h1 | h1
      · exact absurd h1 hid
      · exact ih r h1

theorem rowFold_status (ids : List Int) (r : MonRow) :
    (ids.foldl (fun row i => if row.id = i then { row with status := MStatus.stopped }
      else row) r).status = r.status ∨
    (ids.foldl (fun row i => if row.id = i then { row with status := MStatus.stopped }
      else row) r).status = MStatus.stopped := by
  induction ids generalizing r with
  | nil => exact Or.inl rfl
  | cons i rest ih =>
    simp only [List.foldl_cons]
    by_cases hid : r.id = i
    · rw [if_pos hid]
      rcases ih { r with status := MStatus.stopped } with h | h
      · exact Or.inr h
      · exact Or.inr h
    · rw [if_neg hid]
      exact ih r

/-- Claim C8: the startup sweep `clear_all_active_monitorings` (which
`main` awaits before the monitoring service starts) moves every
previously-Active monitoring to Stopped, and immediately after it the set
of Active monitorings is empty. -/
theorem startupSweep_clears_active (db : List MonRow) :
    getAllActiveMonitorings (clearAllActiveMonitorings db) = [] ∧
    ∀ r ∈ db, r.status = MStatus.active →
      { r with status := MStatus.stopped } ∈ clearAllActiveMonitorings db := by
  have hmap := foldl_update_eq_map
    ((getAllActiveMonitorings db).map (fun r => r.id)) db
  constructor
  · unfold clearAllActiveMonitorings
    rw [hmap]
    refine List.filter_eq_nil_iff.mpr ?_
    intro x hx
    obtain ⟨r, hr, rfl⟩ := List.mem_map.mp hx
    by_cases hact : r.status = .active
    · have hidmem : r.id ∈ (getAllActiveMonitorings db).map (fun r => r.id) := by
        refine List.mem_map.mpr ⟨r, ?_, rfl⟩
        unfold getAllActiveMonitorings
        exact List.mem_filter.mpr ⟨hr, by simp [hact]⟩
      rw [rowFold_of_mem _ _ hidmem]
      simp
    · rcases rowFold_status ((getAllActiveMonitorings db).map (fun r => r.id)) r
        with h | h <;> simp [h, hact]
  · intro r hr hact
    unfold clearAllActiveMonitorings
    rw [hmap]
    refine List.mem_map.mpr ⟨r, hr, ?_⟩
    refine rowFold_of_mem _ _ ?_
    refine List.mem_map.mpr ⟨r, ?_, rfl⟩
    unfold getAllActiveMonitorings
    exact List.mem_filter.mpr ⟨hr, by simp [hact]⟩

theorem startupSweep_clears_active_witness :
    getAllActiveMonitorings (clearAllActiveMonitorings c8Db) = [] ∧
    ({ id := 1, status := MStatus.stopped } : MonRow)
      ∈ clearAllActiveMonitorings c8Db :=
  ⟨(startupSweep_clears_active c8Db).1,
   (startupSweep_clears_active c8Db).2 { id := 1, status := MStatus.active }
     (by decide) rfl⟩



/-- Claim C9, counterexample: with three coroutines sharing the rate
limiter, an admissible event-loop schedule grants calls at times 100,
110 and 110 — the last two grants are 0 seconds apart, violating the
claimed 10-second minimum spacing.  Both late coroutines read
`_last_supplies_request = 100` before either sleeps, compute the same
wake time, and are both granted on waking. -/
theorem rateLimiter_concurrent_violation :
    rlRun rlDemoInit rlDemoEvents = some rlDemoFinal ∧
    rlDemoFinal.grants = [100, 110, 110] ∧
    ¬ rlSpaced rlDemoFinal.grants := by
  refine ⟨by norm_num [rlRun, rlStep, rlDemoInit, rlDemoEvents, rlDemoFinal],
    rfl, ?_⟩
  intro h
  have h12 := (List.chain'_cons.mp (List.chain'_cons.mp h).2).1
  norm_num at h12

theorem rlGrantTime_ge (last t : ℚ) : last + 10 ≤ rlGrantTime last t := by
  unfold rlGrantTime
  split
  next h => exact le_refl _
  next h =>
    push_neg at h
    linarith

/-- Claim C9, amended: when callers go through
`_ensure_supplies_rate_limit` one after another (each entering only after
the previous grant completed, so the read of `_last_supplies_request`
always sees the previous grant), consecutive granted calls are at least
10 seconds apart. -/
theorem rateLimiter_sequential_spacing (last : ℚ) (ts : List ℚ) :
    rlSpaced (rlSeqGrants last ts) := by
  induction ts generalizing last with
  | nil => simp [rlSeqGrants, rlSpaced]
  | cons t ts ih =>
    show List.Chain' _ (rlSeqGrants last (t :: ts))
    unfold rlSeqGrants
    rw [List.chain'_cons']
    constructor
    · intro h hh
      cases ts with
      | nil => simp [rlSeqGrants] at hh
      | cons u us =>
        simp only [rlSeqGrants, List.head?_cons, Option.mem_def,
          Option.some.injEq] at hh
        subst hh
        exact rlGrantTime_ge _ _
    · exact ih (rlGrantTime last t)

end WbBot
